import Mathlib

/-!
# Verification of the data-entities numeric model

This file embeds the value-level semantics of the `data-entities` library
(`src/utils.ts`, `src/config.ts`, `src/entities/Money.ts`,
`src/entities/OrderPrice.ts`, `src/entities/AssetPair.ts`) in Lean 4 and
proves or refutes the specified properties.

Modelling conventions:

* The external arbitrary-precision decimal library (`BigNumber`) is treated
  as exact rational arithmetic.  A finite decimal value is a `ℚ`; the full
  value space (NaN, ±Infinity) is `BigNum` and is used where NaN/finiteness
  behaviour is at stake.
* `BigNumber#roundTo(0, mode)` is `roundToInt` below; the numeric rounding
  modes follow the library's numbering (0 = up/away-from-zero,
  1 = down/toward-zero, 2 = ceil, 3 = floor, 4 = half-up), of which the
  source uses 3 (`Money` constructor), 1 (`Money.convert`) and 4
  (the default mode used by `toFixed`).
* `BigNumber#toFixed(p)` of a value `v` is `toFixedQ v p`: round at `p`
  decimal places (half-up, the library default) and print in plain
  fixed-point notation.
* String parsing by the `BigNumber` constructor is `parseDecimal`: an
  optional sign, an optional integer part, an optional fractional part
  (at least one digit overall), or the literal `Infinity`; anything else
  parses to NaN.  Exponent notation is not modelled (no property here
  depends on it).
-/

namespace DataEntities

/-- Round a rational to an integer using the decimal library's rounding-mode
numbering: 0 = away from zero, 1 = toward zero, 2 = ceiling, 3 = floor,
anything else = half-up (the library's default mode, used by `toFixed`). -/
def roundToInt (q : ℚ) (mode : ℕ) : ℤ :=
  match mode with
  | 0 => if 0 ≤ q then ⌈q⌉ else ⌊q⌋
  | 1 => if 0 ≤ q then ⌊q⌋ else ⌈q⌉
  | 2 => ⌈q⌉
  | 3 => ⌊q⌋
  | _ => if 0 ≤ q then ⌊q + 1/2⌋ else -⌊-q + 1/2⌋

/-- Decimal digit characters of a natural number, most significant first.
The first argument is recursion fuel; `fuel = n` is always enough since the
value shrinks by a factor of ten each step. -/
def natToDigitChars : ℕ → ℕ → List Char
  | 0, _ => []
  | fuel + 1, n =>
    if n = 0 then []
    else natToDigitChars fuel (n / 10) ++ [Char.ofNat (48 + n % 10)]

/-- Plain decimal string of a natural number. -/
def natToDecString (n : ℕ) : String :=
  if n = 0 then "0" else String.mk (natToDigitChars n n)

/-- Plain decimal string of an integer. -/
def intToDecString (n : ℤ) : String :=
  (if n < 0 then "-" else "") ++ natToDecString n.natAbs

/-- Left-pad a string with zeros to length `p`. -/
def padZeros (s : String) (p : ℕ) : String :=
  String.mk (List.replicate (p - s.length) '0') ++ s

/-- `BigNumber#toFixed(p)`: round the value at `p` decimal places (half-up,
the library default) and print it in fixed-point notation with exactly `p`
fractional digits (none, and no decimal point, when `p = 0`). -/
def toFixedQ (v : ℚ) (p : ℕ) : String :=
  let n : ℤ := roundToInt (v * 10 ^ p) 4
  let sign : String := if n < 0 then "-" else ""
  let ip : ℕ := n.natAbs / 10 ^ p
  let fp : ℕ := n.natAbs % 10 ^ p
  sign ++ natToDecString ip ++
    (if p = 0 then "" else "." ++ padZeros (natToDecString fp) p)

/-- A value of the external decimal library: NaN, an infinity, or a finite
(exact) rational. -/
inductive BigNum where
  | nan : BigNum
  | posInf : BigNum
  | negInf : BigNum
  | fin : ℚ → BigNum
deriving DecidableEq, Repr

/-- `true` for the characters `0`–`9`. -/
def isDigitChar (c : Char) : Bool := 48 ≤ c.toNat && c.toNat ≤ 57

/-- Numeric value of a digit character. -/
def digitVal (c : Char) : ℕ := c.toNat - 48

/-- Fold a digit-character list into a natural number, failing on the first
non-digit character. -/
def parseDigitsAux (acc : ℕ) : List Char → Option ℕ
  | [] => some acc
  | c :: cs =>
    if isDigitChar c then parseDigitsAux (acc * 10 + digitVal c) cs else none

/-- Strip a leading sign character, reporting whether it was a minus. -/
def splitSign (cs : List Char) : Bool × List Char :=
  match cs with
  | [] => (false, [])
  | c :: t =>
    if c = '-' then (true, t)
    else if c = '+' then (false, t)
    else (false, c :: t)

/-- The magnitude grammar of the decimal boundary: the literal `Infinity`,
or digits with at most one decimal point and at least one digit in total;
anything else is NaN. -/
def parseUnsigned (cs : List Char) : BigNum :=
  if cs = "Infinity".data then BigNum.posInf
  else
    let ip := cs.takeWhile (fun c => c != '.')
    match cs.dropWhile (fun c => c != '.') with
    | [] =>
      if ip.isEmpty then BigNum.nan
      else
        match parseDigitsAux 0 ip with
        | some n => BigNum.fin (n : ℚ)
        | none => BigNum.nan
    | _ :: frac =>
      if frac.contains '.' then BigNum.nan
      else if ip.isEmpty && frac.isEmpty then BigNum.nan
      else
        match parseDigitsAux 0 ip, parseDigitsAux 0 frac with
        | some i, some f => BigNum.fin ((i : ℚ) + (f : ℚ) / 10 ^ frac.length)
        | _, _ => BigNum.nan

/-- Negation on decimal values (NaN stays NaN). -/
def bigNeg : BigNum → BigNum
  | .nan => .nan
  | .posInf => .negInf
  | .negInf => .posInf
  | .fin q => .fin (-q)

/-- Decimal parsing as performed by the `BigNumber` constructor on a string:
optional sign, then either the literal `Infinity`, or digits with an optional
single decimal point (at least one digit in total); any other input yields
NaN.  (Exponent notation is not modelled; no verified property uses it.) -/
def parseDecimal (s : String) : BigNum :=
  let sp := splitSign s.data
  if sp.1 then bigNeg (parseUnsigned sp.2) else parseUnsigned sp.2

/-- The input type `string | number | BigNumber` of `toBigNumber`.  A JS
`number` is carried by its value, which is NaN, an infinity, or a (finite)
rational. -/
inductive TNumInput where
  | str : String → TNumInput
  | num : BigNum → TNumInput
  | big : BigNum → TNumInput
deriving DecidableEq, Repr

/-- `toBigNumber` (src/utils.ts): a `BigNumber` input is returned as-is;
otherwise a `BigNumber` is constructed from the string or number.  No
validation of any kind is performed. -/
def toBigNumber : TNumInput → BigNum
  | .big b => b
  | .num v => v
  | .str s => parseDecimal s

/-! ## Assets and pairs -/

/-- Modelled from the spec: `Asset` (src/entities/Asset.ts is not present in
the source tree; only its callers and tests are).  Per the spec an asset has
an id (non-empty string) and a precision (non-negative integer) among other
fields; only `id` and `precision` are read by `Money`, `AssetPair` and
`OrderPrice`, so only those are included here. -/
structure Asset where
  id : String
  precision : ℕ
deriving DecidableEq, Repr

/-- `AssetPair` (src/entities/AssetPair.ts): the two assets of a trading
pair, stored verbatim. -/
structure AssetPair where
  amountAsset : Asset
  priceAsset : Asset
deriving DecidableEq, Repr

/-- `precisionDifference = priceAsset.precision - amountAsset.precision`
(signed; may be zero or negative). -/
def AssetPair.precisionDifference (p : AssetPair) : ℤ :=
  (p.priceAsset.precision : ℤ) - (p.amountAsset.precision : ℤ)

/-! ## Money (src/entities/Money.ts) -/

/-- A `Money` value: the referenced asset and the stored `_coins` amount.
The constructor rounds the coin input to an integer, so `_coins` is carried
as `ℤ`. -/
structure Money where
  asset : Asset
  coins : ℤ
deriving DecidableEq, Repr

/-- `new Money(coins, asset)`: the coin input is rounded with
`roundTo(0, 3)` (mode 3 = `ROUND_FLOOR`).  The derived `_tokens` field
(`_coins.div(divider)`) is recomputed on demand by `Money.tokens`. -/
def newMoney (coins : ℚ) (asset : Asset) : Money :=
  { asset := asset, coins := roundToInt coins 3 }

/-- The `_tokens` field: `_coins.div(divider)` with
`divider = 10^asset.precision`. -/
def Money.tokens (m : Money) : ℚ := (m.coins : ℚ) / 10 ^ m.asset.precision

/-- `Money#toCoins()`: `_coins.toFixed(0)`. -/
def Money.toCoins (m : Money) : String := toFixedQ (m.coins : ℚ) 0

/-- `Money#toTokens()`: `_tokens.toFixed(asset.precision)`. -/
def Money.toTokens (m : Money) : String := toFixedQ m.tokens m.asset.precision

/-- The errors thrown by `Money` operations: the asset-mismatch error of
`_matchAssets` and the division-by-zero error of `div`. -/
inductive MoneyErr where
  | assetMismatch : MoneyErr
  | divisionByZero : MoneyErr
deriving DecidableEq, Repr

/-- `Money#_matchAssets`: throws unless the two asset **id strings** are
equal (value equality, not object identity). -/
def Money.matchAssets (m1 m2 : Money) : Except MoneyErr Unit :=
  if m1.asset.id = m2.asset.id then .ok () else .error .assetMismatch

/-- The coin arithmetic of `Money#sub` after the asset check:
`new Money(this._coins.sub(money.getCoins()), this.asset)`. -/
def Money.subCore (m1 m2 : Money) : Money :=
  newMoney ((m1.coins : ℚ) - (m2.coins : ℚ)) m1.asset

/-- `Money#add`: asset check, then coin addition. -/
def Money.add (m1 m2 : Money) : Except MoneyErr Money :=
  match Money.matchAssets m1 m2 with
  | .error e => .error e
  | .ok _ => .ok (newMoney ((m1.coins : ℚ) + (m2.coins : ℚ)) m1.asset)

/-- `Money#sub`: asset check, then coin subtraction. -/
def Money.sub (m1 m2 : Money) : Except MoneyErr Money :=
  match Money.matchAssets m1 m2 with
  | .error e => .error e
  | .ok _ => .ok (Money.subCore m1 m2)

/-- `Money#times`: asset check, then multiplication of the **coin**
amounts. -/
def Money.times (m1 m2 : Money) : Except MoneyErr Money :=
  match Money.matchAssets m1 m2 with
  | .error e => .error e
  | .ok _ => .ok (newMoney ((m1.coins : ℚ) * (m2.coins : ℚ)) m1.asset)

/-- `Money#div`: asset check, zero-divisor check, then division of the coin
amounts (exact in this model; the result is floored by the constructor). -/
def Money.div (m1 m2 : Money) : Except MoneyErr Money :=
  match Money.matchAssets m1 m2 with
  | .error e => .error e
  | .ok _ =>
    if m2.coins = 0 then .error .divisionByZero
    else .ok (newMoney ((m1.coins : ℚ) / (m2.coins : ℚ)) m1.asset)

/-- `Money#eq`: asset check, then coin equality. -/
def Money.eq (m1 m2 : Money) : Except MoneyErr Bool :=
  match Money.matchAssets m1 m2 with
  | .error e => .error e
  | .ok _ => .ok (decide (m1.coins = m2.coins))

/-- `Money#lt`: asset check, then strict coin comparison. -/
def Money.lt (m1 m2 : Money) : Except MoneyErr Bool :=
  match Money.matchAssets m1 m2 with
  | .error e => .error e
  | .ok _ => .ok (decide (m1.coins < m2.coins))

/-- `Money#safeSub`: subtracts (via `sub`, whose asset check then succeeds)
when the asset ids are equal, otherwise returns `this` unchanged. -/
def Money.safeSub (m1 m2 : Money) : Money :=
  if m1.asset.id = m2.asset.id then Money.subCore m1 m2 else m1

/-- `Money.fromTokens`: `new Money(tokens.mul(10^precision), asset)`. -/
def Money.fromTokens (count : ℚ) (asset : Asset) : Money :=
  newMoney (count * 10 ^ asset.precision) asset

/-- `Money.fromCoins`: `new Money(count, asset)`. -/
def Money.fromCoins (count : ℚ) (asset : Asset) : Money :=
  newMoney count asset

/-- `Money.convert`: same asset id returns the original instance; otherwise
`coins * exchangeRate / 10^(sourcePrecision - targetPrecision)` is rounded
with `roundTo(0, 1)` (mode 1 = `ROUND_DOWN`, toward zero) and handed to the
constructor. -/
def Money.convert (money : Money) (asset : Asset) (exchangeRate : ℚ) : Money :=
  if money.asset.id = asset.id then money
  else
    let difference : ℤ := (money.asset.precision : ℤ) - (asset.precision : ℤ)
    let divider : ℚ := (10 : ℚ) ^ difference
    let result : ℤ := roundToInt ((money.coins : ℚ) * exchangeRate / divider) 1
    newMoney (result : ℚ) asset

/-- `Money#convertTo(asset, rate)` delegates to `Money.convert`. -/
def Money.convertTo (m : Money) (asset : Asset) (exchangeRate : ℚ) : Money :=
  Money.convert m asset exchangeRate

/-! ## OrderPrice (src/entities/OrderPrice.ts) -/

/-- `_MATCHER_SCALE = 10^8`. -/
def matcherScale : ℚ := 10 ^ 8

/-- `_getMatcherDivider(precision) = 10^precision * _MATCHER_SCALE`, taking
the pair's (signed) precision difference. -/
def matcherDivider (precision : ℤ) : ℚ := (10 : ℚ) ^ precision * matcherScale

/-- An `OrderPrice`: the pair and the raw `_matcherCoins` decimal (stored
without rounding by the constructor). -/
structure OrderPrice where
  pair : AssetPair
  matcherCoins : ℚ
deriving DecidableEq, Repr

/-- The `_tokens` field: `_matcherCoins.div(divider)`. -/
def OrderPrice.tokens (o : OrderPrice) : ℚ :=
  o.matcherCoins / matcherDivider o.pair.precisionDifference

/-- `OrderPrice#toMatcherCoins()`: `_matcherCoins.toFixed(0)`. -/
def OrderPrice.toMatcherCoins (o : OrderPrice) : String :=
  toFixedQ o.matcherCoins 0

/-- `OrderPrice#toTokens()`: `_tokens.toFixed(priceAsset.precision)`. -/
def OrderPrice.toTokens (o : OrderPrice) : String :=
  toFixedQ o.tokens o.pair.priceAsset.precision

/-- `OrderPrice.fromTokens`: the token input is first rendered with
`toFixed(priceAsset.precision)` (rounding at that precision) and re-read,
then scaled by the matcher divider. -/
def OrderPrice.fromTokens (tokens : ℚ) (pair : AssetPair) : OrderPrice :=
  let p := pair.priceAsset.precision
  let fixed : ℚ := (roundToInt (tokens * 10 ^ p) 4 : ℚ) / 10 ^ p
  { pair := pair, matcherCoins := fixed * matcherDivider pair.precisionDifference }

/-- `OrderPrice.fromMatcherCoins` on an already-parsed finite coin value. -/
def OrderPrice.fromMatcherCoins (coins : ℚ) (pair : AssetPair) : OrderPrice :=
  { pair := pair, matcherCoins := coins }

/-- The chain
`OrderPrice.fromMatcherCoins(OrderPrice.fromTokens(s, pair).toMatcherCoins(), pair).toTokens()`:
the matcher-coin string is parsed by the decimal boundary on re-entry; a
non-finite parse result yields `none` (it could not produce a meaningful
price). -/
def orderPriceRoundTrip (tokens : ℚ) (pair : AssetPair) : Option String :=
  match parseDecimal ((OrderPrice.fromTokens tokens pair).toMatcherCoins) with
  | .fin w => some ((OrderPrice.fromMatcherCoins w pair).toTokens)
  | _ => none

/-! ## Config registry (src/config.ts)

The two stored handlers are unary functions; their behaviour is irrelevant
to the registry logic, so the store is parametric in the slot type `V`.  A
slot holds `Option V`: `none` models the JS value `undefined`, which a bulk
`Object.assign` can write into the store. -/

/-- The error thrown for a key outside the allow-list. -/
inductive ConfigErr where
  | unknownConfigKey : ConfigErr
deriving DecidableEq, Repr

/-- The `storage` object: slots for `remapAsset` and `remapCandle`. -/
structure ConfigStore (V : Type) where
  remapAsset : Option V
  remapCandle : Option V
deriving DecidableEq, Repr

/-- `Object.keys(storage)`: the fixed allow-list of config keys. -/
def validKeys : List String := ["remapAsset", "remapCandle"]

/-- Write one own-property binding into the store (the effect of
`Object.assign(storage, { [key]: value })` for a known key; an unknown key
leaves the modelled slots unchanged). -/
def assignKey (s : ConfigStore V) (k : String) (v : Option V) : ConfigStore V :=
  if k = "remapAsset" then { s with remapAsset := v }
  else if k = "remapCandle" then { s with remapCandle := v }
  else s

/-- `config.set(key, value)`: throws on a key `storage` does not own; a
defined value is assigned, an `undefined` value is ignored. -/
def configSetKey (s : ConfigStore V) (k : String) (v : Option V) :
    Except ConfigErr (ConfigStore V) :=
  if validKeys.contains k then
    match v with
    | none => .ok s
    | some v0 => .ok (assignKey s k (some v0))
  else .error .unknownConfigKey

/-- `config.set(values)`: every key of the map is checked against the
allow-list; only when all pass is `Object.assign(storage, values)` applied,
which copies **every** own binding — including bindings whose value is
`undefined`. -/
def configSetBulk (s : ConfigStore V) (values : List (String × Option V)) :
    Except ConfigErr (ConfigStore V) :=
  if values.all (fun kv => validKeys.contains kv.1) then
    .ok (values.foldl (fun st kv => assignKey st kv.1 kv.2) s)
  else .error .unknownConfigKey

/-! ## Lemmas: strings, rounding and the decimal print/parse round trip -/

theorem strAppend_empty (s : String) : s ++ "" = s := by
  cases s with
  | mk l =>
    show String.mk (l ++ []) = String.mk l
    rw [List.append_nil]

theorem strEmpty_append (s : String) : "" ++ s = s := by
  cases s with
  | mk l => rfl

theorem roundToInt_floor_mode (q : ℚ) : roundToInt q 3 = ⌊q⌋ := rfl

theorem roundToInt_one_intCast (n : ℤ) : roundToInt (n : ℚ) 1 = n := by
  simp [roundToInt, Int.floor_intCast, Int.ceil_intCast]

theorem floor_int_add_half (m : ℤ) : ⌊(m : ℚ) + 1 / 2⌋ = m := by
  rw [Int.floor_int_add]
  norm_num

theorem roundToInt_four_intCast (n : ℤ) : roundToInt (n : ℚ) 4 = n := by
  by_cases h : (0 : ℚ) ≤ (n : ℚ)
  · simp only [roundToInt, if_pos h, floor_int_add_half]
  · have hneg : -(n : ℚ) = ((-n : ℤ) : ℚ) := by push_cast; ring
    simp only [roundToInt, if_neg h, hneg, floor_int_add_half, neg_neg]

theorem intCast_num_of_den_one {q : ℚ} (h : q.den = 1) : (q.num : ℚ) = q :=
  (Rat.den_eq_one_iff q).mp h

theorem roundToInt_four_den_one {q : ℚ} (h : q.den = 1) : roundToInt q 4 = q.num := by
  conv_lhs => rw [← intCast_num_of_den_one h]
  exact roundToInt_four_intCast q.num

theorem floor_den_one {q : ℚ} (h : q.den = 1) : ⌊q⌋ = q.num := by
  conv_lhs => rw [← intCast_num_of_den_one h]
  exact Int.floor_intCast q.num

theorem toFixedQ_zero_eq (v : ℚ) : toFixedQ v 0 = intToDecString (roundToInt v 4) := by
  unfold toFixedQ
  simp only [pow_zero, mul_one, Nat.div_one, eq_self_iff_true, if_true]
  rw [strAppend_empty]
  rfl

theorem toFixedQ_intCast (n : ℤ) : toFixedQ (n : ℚ) 0 = intToDecString n := by
  rw [toFixedQ_zero_eq, roundToInt_four_intCast]

theorem parseDigitsAux_append (acc : ℕ) (xs ys : List Char) :
    parseDigitsAux acc (xs ++ ys) =
      (parseDigitsAux acc xs).bind fun m => parseDigitsAux m ys := by
  induction xs generalizing acc with
  | nil => simp [parseDigitsAux]
  | cons c cs ih =>
    simp only [List.cons_append, parseDigitsAux]
    by_cases h : isDigitChar c = true
    · simp only [h, if_true]
      exact ih _
    · simp [h]

theorem isDigitChar_ofDigit : ∀ m, m < 10 → isDigitChar (Char.ofNat (48 + m)) = true := by
  decide

theorem digitVal_ofDigit : ∀ m, m < 10 → digitVal (Char.ofNat (48 + m)) = m := by
  decide

theorem mem_natToDigitChars_isDigit (fuel : ℕ) :
    ∀ n c, c ∈ natToDigitChars fuel n → isDigitChar c = true := by
  induction fuel with
  | zero => intro n c h; simp [natToDigitChars] at h
  | succ f ih =>
    intro n c h
    rw [natToDigitChars] at h
    by_cases hn : n = 0
    · simp [hn] at h
    · rw [if_neg hn] at h
      rcases List.mem_append.mp h with h1 | h2
      · exact ih _ _ h1
      · have hc : c = Char.ofNat (48 + n % 10) := by simpa using h2
        subst hc
        exact isDigitChar_ofDigit _ (Nat.mod_lt _ (by norm_num))

theorem parseDigitsAux_natToDigitChars (fuel : ℕ) :
    ∀ n acc, n ≤ fuel →
      ∃ k, parseDigitsAux acc (natToDigitChars fuel n) = some (acc * 10 ^ k + n) := by
  induction fuel with
  | zero =>
    intro n acc h
    have h0 : n = 0 := Nat.le_zero.mp h
    subst h0
    exact ⟨0, by simp [natToDigitChars, parseDigitsAux]⟩
  | succ f ih =>
    intro n acc _
    by_cases hn : n = 0
    · subst hn; exact ⟨0, by simp [natToDigitChars, parseDigitsAux]⟩
    · rw [natToDigitChars, if_neg hn, parseDigitsAux_append]
      have hle : n / 10 ≤ f := by
        have h1 : n / 10 < n := Nat.div_lt_self (Nat.pos_of_ne_zero hn) (by norm_num)
        omega
      obtain ⟨k, hk⟩ := ih (n / 10) acc hle
      rw [hk]
      have hm : n % 10 < 10 := Nat.mod_lt _ (by norm_num)
      refine ⟨k + 1, ?_⟩
      simp only [Option.some_bind, parseDigitsAux, isDigitChar_ofDigit _ hm, if_true,
        digitVal_ofDigit _ hm]
      congr 1
      conv_rhs => rw [← Nat.div_add_mod n 10]
      ring

theorem parseDigitsAux_natToDecString (n : ℕ) :
    parseDigitsAux 0 (natToDecString n).data = some n := by
  by_cases hn : n = 0
  · subst hn; rfl
  · rw [natToDecString, if_neg hn]
    obtain ⟨k, hk⟩ := parseDigitsAux_natToDigitChars n n 0 le_rfl
    simpa using hk

theorem natToDecString_digits (n : ℕ) :
    ∀ c ∈ (natToDecString n).data, isDigitChar c = true := by
  intro c hc
  by_cases hn : n = 0
  · subst hn
    simp only [natToDecString, if_pos rfl] at hc
    have : c = '0' := by simpa using hc
    subst this
    decide
  · rw [natToDecString, if_neg hn] at hc
    exact mem_natToDigitChars_isDigit n n c hc

theorem natToDecString_ne_nil (n : ℕ) : (natToDecString n).data ≠ [] := by
  by_cases hn : n = 0
  · subst hn; decide
  · rw [natToDecString, if_neg hn]
    intro h
    obtain ⟨k, hk⟩ := parseDigitsAux_natToDigitChars n n 0 le_rfl
    have h0 : natToDigitChars n n = [] := h
    rw [h0] at hk
    simp [parseDigitsAux] at hk
    omega

theorem splitSign_cons_minus (t : List Char) : splitSign ('-' :: t) = (true, t) := by
  simp [splitSign]

theorem splitSign_of_digits {cs : List Char} (h : ∀ c ∈ cs, isDigitChar c = true)
    (hne : cs ≠ []) : splitSign cs = (false, cs) := by
  cases cs with
  | nil => exact absurd rfl hne
  | cons c t =>
    have hc := h c (List.mem_cons_self c t)
    have h1 : c ≠ '-' := fun he => absurd (he ▸ hc) (by decide)
    have h2 : c ≠ '+' := fun he => absurd (he ▸ hc) (by decide)
    simp [splitSign, h1, h2]

theorem parseUnsigned_digits {cs : List Char} (h : ∀ c ∈ cs, isDigitChar c = true)
    (hne : cs ≠ []) {n : ℕ} (hp : parseDigitsAux 0 cs = some n) :
    parseUnsigned cs = BigNum.fin (n : ℚ) := by
  have hinf : cs ≠ "Infinity".data := by
    intro he
    have hI : isDigitChar 'I' = true := h 'I' (by rw [he]; decide)
    exact absurd hI (by decide)
  have hdot : ∀ c ∈ cs, (c != '.') = true := by
    intro c hc
    have hd := h c hc
    have : c ≠ '.' := fun he => absurd (he ▸ hd) (by decide)
    simpa [bne_iff_ne] using this
  have htake : cs.takeWhile (fun c => c != '.') = cs :=
    List.takeWhile_eq_self_iff.mpr hdot
  have hdrop : cs.dropWhile (fun c => c != '.') = [] :=
    List.dropWhile_eq_nil_iff.mpr hdot
  have hempty : cs.isEmpty = false := by
    cases cs with
    | nil => exact absurd rfl hne
    | cons c t => rfl
  rw [parseUnsigned, if_neg hinf]
  simp only [htake, hdrop, hempty, Bool.false_eq_true, if_false, hp]

theorem parseUnsigned_natToDecString (n : ℕ) :
    parseUnsigned (natToDecString n).data = BigNum.fin (n : ℚ) :=
  parseUnsigned_digits (natToDecString_digits n) (natToDecString_ne_nil n)
    (parseDigitsAux_natToDecString n)

theorem parseDecimal_natToDecString (n : ℕ) :
    parseDecimal (natToDecString n) = BigNum.fin (n : ℚ) := by
  rw [parseDecimal]
  simp only [splitSign_of_digits (natToDecString_digits n) (natToDecString_ne_nil n)]
  simpa using parseUnsigned_natToDecString n

theorem parseDecimal_intToDecString (n : ℤ) :
    parseDecimal (intToDecString n) = BigNum.fin (n : ℚ) := by
  by_cases hn : n < 0
  · rw [intToDecString, if_pos hn]
    have hdata : ("-" ++ natToDecString n.natAbs).data =
        '-' :: (natToDecString n.natAbs).data := by
      rw [String.data_append]; rfl
    simp only [parseDecimal, hdata, splitSign_cons_minus, if_true,
      parseUnsigned_natToDecString n.natAbs, bigNeg]
    congr 1
    have hz : (n.natAbs : ℤ) = -n := by omega
    have habs : (n.natAbs : ℚ) = -(n : ℚ) := by
      rw [← @Int.cast_natCast ℚ _ n.natAbs, hz, Int.cast_neg]
    rw [habs, neg_neg]
  · rw [intToDecString, if_neg hn, strEmpty_append, parseDecimal_natToDecString]
    congr 1
    have hz : (n.natAbs : ℤ) = n := by omega
    rw [← @Int.cast_natCast ℚ _ n.natAbs, hz]

/-! ## Lemmas about Money operations -/

theorem matchAssets_ok {m1 m2 : Money} (h : m1.asset.id = m2.asset.id) :
    Money.matchAssets m1 m2 = .ok () := by
  simp [Money.matchAssets, h]

theorem matchAssets_mismatch {m1 m2 : Money} (h : m1.asset.id ≠ m2.asset.id) :
    Money.matchAssets m1 m2 = .error .assetMismatch := by
  simp [Money.matchAssets, h]

theorem newMoney_coins (q : ℚ) (a : Asset) : (newMoney q a).coins = ⌊q⌋ := rfl

theorem newMoney_asset (q : ℚ) (a : Asset) : (newMoney q a).asset = a := rfl

theorem intCast_mul_floor (a b : ℤ) : ⌊(a : ℚ) * (b : ℚ)⌋ = a * b := by
  have h : (a : ℚ) * (b : ℚ) = ((a * b : ℤ) : ℚ) := by push_cast; ring
  rw [h, Int.floor_intCast]

theorem times_ok {m1 m2 : Money} (h : m1.asset.id = m2.asset.id) :
    Money.times m1 m2 = .ok ⟨m1.asset, m1.coins * m2.coins⟩ := by
  rw [Money.times, matchAssets_ok h]
  show Except.ok (newMoney _ _) = _
  rw [newMoney]
  rw [roundToInt_floor_mode, intCast_mul_floor]

/-! ## Claim C1 -/

/-- C1, counterexample: `toBigNumber` does not fail on a NaN result and does
not fail on a non-finite result — a NaN `BigNumber` input is returned as-is
(the `instanceof` branch), and a non-finite number input becomes a non-finite
decimal; the claim says neither can ever be returned. -/
theorem c1_counterexample :
    toBigNumber (TNumInput.big BigNum.nan) = BigNum.nan ∧
    toBigNumber (TNumInput.num BigNum.posInf) = BigNum.posInf :=
  ⟨rfl, rfl⟩

/-- C1, amended: `toBigNumber` performs no NaN or finiteness validation at
all: a `BigNumber` input (NaN and infinities included) is returned unchanged,
a number input is converted to the decimal with the same value, and a string
is parsed with parse failures yielding NaN and the literal `Infinity`
yielding a non-finite decimal — no input makes the conversion fail. -/
theorem c1_toBigNumber_no_validation :
    (∀ b : BigNum, toBigNumber (TNumInput.big b) = b) ∧
    (∀ u : BigNum, toBigNumber (TNumInput.num u) = u) ∧
    toBigNumber (TNumInput.str "abc") = BigNum.nan ∧
    toBigNumber (TNumInput.str "Infinity") = BigNum.posInf :=
  ⟨fun _ => rfl, fun _ => rfl, rfl, rfl⟩

/-! ## Claim C2 -/

/-- C2: the `Money` constructor stores the coin input rounded toward
negative infinity (floor, not truncation), and in particular
`new Money("19.9", zeroPrecisionAsset).toCoins()` is `"19"`. -/
theorem c2_constructor_floors :
    (∀ (q : ℚ) (a : Asset), (newMoney q a).coins = ⌊q⌋) ∧
    parseDecimal "19.9" = BigNum.fin (199 / 10) ∧
    Money.toCoins (newMoney (199 / 10) ⟨"ZERO", 0⟩) = "19" := by
  refine ⟨fun q a => rfl, ?_, ?_⟩
  · have h : parseDecimal "19.9" =
        BigNum.fin ((19 : ℕ) + ((9 : ℕ) : ℚ) / 10 ^ (1 : ℕ)) := rfl
    rw [h]
    norm_num
  · have hc : (newMoney (199 / 10) ⟨"ZERO", 0⟩).coins = 19 := by
      show roundToInt (199 / 10) 3 = 19
      rw [roundToInt_floor_mode]
      norm_num
    rw [Money.toCoins, hc, toFixedQ_intCast]
    rfl

/-! ## Claim C3 -/

/-- C3: for different asset ids, `add`, `sub`, `times`, `div`, `eq` and `lt`
all fail with the asset-mismatch error while `safeSub` returns the left
operand unchanged; for equal asset ids `safeSub` behaves as `sub`. -/
theorem c3_asset_mismatch_law (m1 m2 : Money) :
    (m1.asset.id ≠ m2.asset.id →
      Money.add m1 m2 = .error .assetMismatch ∧
      Money.sub m1 m2 = .error .assetMismatch ∧
      Money.times m1 m2 = .error .assetMismatch ∧
      Money.div m1 m2 = .error .assetMismatch ∧
      Money.eq m1 m2 = .error .assetMismatch ∧
      Money.lt m1 m2 = .error .assetMismatch ∧
      Money.safeSub m1 m2 = m1) ∧
    (m1.asset.id = m2.asset.id → Money.sub m1 m2 = .ok (Money.safeSub m1 m2)) := by
  constructor
  · intro h
    have hm := matchAssets_mismatch h
    refine ⟨?_, ?_, ?_, ?_, ?_, ?_, ?_⟩ <;>
      simp [Money.add, Money.sub, Money.times, Money.div, Money.eq, Money.lt,
        Money.safeSub, hm, h]
  · intro h
    rw [Money.sub, matchAssets_ok h, Money.safeSub, if_pos h]

/-- C3, witness: concrete instances on assets `"AAA"` and `"BBB"`. -/
theorem c3_asset_mismatch_law_witness :
    (Money.add ⟨⟨"AAA", 0⟩, 5⟩ ⟨⟨"BBB", 0⟩, 3⟩ = .error .assetMismatch ∧
      Money.sub ⟨⟨"AAA", 0⟩, 5⟩ ⟨⟨"BBB", 0⟩, 3⟩ = .error .assetMismatch ∧
      Money.times ⟨⟨"AAA", 0⟩, 5⟩ ⟨⟨"BBB", 0⟩, 3⟩ = .error .assetMismatch ∧
      Money.div ⟨⟨"AAA", 0⟩, 5⟩ ⟨⟨"BBB", 0⟩, 3⟩ = .error .assetMismatch ∧
      Money.eq ⟨⟨"AAA", 0⟩, 5⟩ ⟨⟨"BBB", 0⟩, 3⟩ = .error .assetMismatch ∧
      Money.lt ⟨⟨"AAA", 0⟩, 5⟩ ⟨⟨"BBB", 0⟩, 3⟩ = .error .assetMismatch ∧
      Money.safeSub ⟨⟨"AAA", 0⟩, 5⟩ ⟨⟨"BBB", 0⟩, 3⟩ = ⟨⟨"AAA", 0⟩, 5⟩) ∧
    Money.sub ⟨⟨"AAA", 0⟩, 5⟩ ⟨⟨"AAA", 0⟩, 3⟩ =
      .ok (Money.safeSub ⟨⟨"AAA", 0⟩, 5⟩ ⟨⟨"AAA", 0⟩, 3⟩) :=
  ⟨(c3_asset_mismatch_law _ _).1 (by decide), (c3_asset_mismatch_law _ _).2 rfl⟩

/-! ## Claim C7 -/

/-- C7: the bulk `config.set(map)` fails with the unknown-key error exactly
when some key of the map (prototype-shadowing names such as `"__proto__"`
included) is outside the fixed allow-list, in which case no mutation at all
is applied; `"__proto__"` is rejected like any other unknown key. -/
theorem c7_bulk_set_validates_all_keys :
    (∀ (V : Type) (s : ConfigStore V) (m : List (String × Option V)),
      configSetBulk s m = .error .unknownConfigKey ↔
        ∃ kv ∈ m, validKeys.contains kv.1 = false) ∧
    configSetBulk (⟨some (), some ()⟩ : ConfigStore Unit) [("__proto__", some ())] =
      .error .unknownConfigKey := by
  constructor
  · intro V s m
    rw [configSetBulk]
    by_cases h : (m.all fun kv => validKeys.contains kv.1) = true
    · rw [if_pos h]
      constructor
      · intro hc
        exact Except.noConfusion hc
      · rintro ⟨kv, hmem, hf⟩
        rw [List.all_eq_true] at h
        rw [h kv hmem] at hf
        exact Bool.noConfusion hf
    · rw [if_neg h]
      constructor
      · intro _
        rw [List.all_eq_true] at h
        push_neg at h
        obtain ⟨kv, hmem, hc⟩ := h
        exact ⟨kv, hmem, by simpa using hc⟩
      · intro _
        rfl
  · rfl

/-! ## Claim C8 -/

/-- C8, counterexample: the claim says *every* form of `set` with an
undefined value is a no-op.  The single-key form is, but the bulk form
copies the binding: `set({remapAsset: undefined})` passes key validation and
`Object.assign` overwrites the stored handler with `undefined`, changing the
registry. -/
theorem c8_counterexample :
    configSetKey (⟨some 0, some 1⟩ : ConfigStore ℕ) "remapAsset" none =
      .ok ⟨some 0, some 1⟩ ∧
    configSetBulk (⟨some 0, some 1⟩ : ConfigStore ℕ) [("remapAsset", none)] =
      .ok ⟨none, some 1⟩ ∧
    (⟨none, some 1⟩ : ConfigStore ℕ) ≠ (⟨some 0, some 1⟩ : ConfigStore ℕ) :=
  ⟨rfl, rfl, by decide⟩

/-- C8, amended: a *single-key* `set` whose value is undefined/absent is a
no-op on any valid key (no error, no mutation); the *bulk* form instead
copies an undefined binding into the store, overwriting the stored
handler. -/
theorem c8_amended_undefined_behaviour :
    (∀ (V : Type) (s : ConfigStore V) (k : String), validKeys.contains k = true →
      configSetKey s k none = .ok s) ∧
    (∀ (V : Type) (s : ConfigStore V),
      configSetBulk s [("remapAsset", none)] = .ok { s with remapAsset := none }) := by
  constructor
  · intro V s k h
    rw [configSetKey, if_pos h]
  · intro V s
    rw [configSetBulk]
    simp [validKeys, assignKey]

/-- C8, witness: the single-key no-op at a concrete store and key. -/
theorem c8_amended_undefined_behaviour_witness :
    configSetKey (⟨some 0, some 1⟩ : ConfigStore ℕ) "remapCandle" none =
      .ok ⟨some 0, some 1⟩ :=
  c8_amended_undefined_behaviour.1 ℕ ⟨some 0, some 1⟩ "remapCandle" (by decide)

/-! ## Claim C4 -/

/-- C4: for an asset of precision `p` and a token value exactly representable
at `p` decimal places (its `p`-place decimal string being `toFixedQ v p`),
`Money.fromTokens` then `toTokens` reproduces that string, and `toCoins`
yields the integer string of `v * 10^p`. -/
theorem c4_fromTokens_round_trip (v : ℚ) (a : Asset)
    (h : (v * 10 ^ a.precision).den = 1) :
    Money.toTokens (Money.fromTokens v a) = toFixedQ v a.precision ∧
    Money.toCoins (Money.fromTokens v a) = intToDecString (v * 10 ^ a.precision).num := by
  have h10 : (10 : ℚ) ^ a.precision ≠ 0 := pow_ne_zero _ (by norm_num)
  have hcoins : (Money.fromTokens v a).coins = (v * 10 ^ a.precision).num := by
    rw [Money.fromTokens, newMoney_coins, floor_den_one h]
  have hasset : (Money.fromTokens v a).asset = a := rfl
  constructor
  · rw [Money.toTokens, Money.tokens, hcoins, hasset]
    have hv : (((v * 10 ^ a.precision).num : ℚ)) / 10 ^ a.precision = v := by
      rw [intCast_num_of_den_one h]
      exact mul_div_cancel_right₀ v h10
    rw [hv]
  · rw [Money.toCoins, hcoins, toFixedQ_intCast]

/-- C4, witness: `v = 3/2` on a precision-2 asset; the 2-place string of
`3/2` is produced by `toTokens` and `toCoins` is the string of `150`. -/
theorem c4_fromTokens_round_trip_witness :
    ((3 / 2 : ℚ) * 10 ^ (2 : ℕ)).den = 1 ∧
    Money.toTokens (Money.fromTokens (3 / 2) ⟨"TWO", 2⟩) = toFixedQ (3 / 2) 2 ∧
    Money.toCoins (Money.fromTokens (3 / 2) ⟨"TWO", 2⟩) =
      intToDecString ((3 / 2 : ℚ) * 10 ^ (2 : ℕ)).num := by
  have hden : ((3 / 2 : ℚ) * 10 ^ (2 : ℕ)).den = 1 := by
    have hval : (3 / 2 : ℚ) * 10 ^ (2 : ℕ) = 150 := by norm_num
    rw [hval]
    rfl
  exact ⟨hden, (c4_fromTokens_round_trip (3 / 2) ⟨"TWO", 2⟩ hden).1,
    (c4_fromTokens_round_trip (3 / 2) ⟨"TWO", 2⟩ hden).2⟩

/-! ## Claim C5 -/

/-- C5: `Money.convert` returns the original instance when the asset ids are
equal; otherwise it builds a new `Money` in the target asset whose coins are
`coins * rate / 10^(sourcePrecision - targetPrecision)` rounded toward zero
(floor for non-negative values, ceiling for negative ones — truncation, not
the constructor's floor). -/
theorem c5_convert_rounds_toward_zero (m : Money) (a : Asset) (rate : ℚ) :
    (m.asset.id = a.id → Money.convert m a rate = m) ∧
    (m.asset.id ≠ a.id →
      (Money.convert m a rate).asset = a ∧
      (0 ≤ (m.coins : ℚ) * rate / 10 ^ ((m.asset.precision : ℤ) - (a.precision : ℤ)) →
        (Money.convert m a rate).coins =
          ⌊(m.coins : ℚ) * rate / 10 ^ ((m.asset.precision : ℤ) - (a.precision : ℤ))⌋) ∧
      ((m.coins : ℚ) * rate / 10 ^ ((m.asset.precision : ℤ) - (a.precision : ℤ)) < 0 →
        (Money.convert m a rate).coins =
          ⌈(m.coins : ℚ) * rate / 10 ^ ((m.asset.precision : ℤ) - (a.precision : ℤ))⌉)) := by
  constructor
  · intro h
    rw [Money.convert, if_pos h]
  · intro h
    simp only [Money.convert, if_neg h]
    refine ⟨newMoney_asset _ _, fun hx => ?_, fun hx => ?_⟩
    · rw [newMoney_coins, Int.floor_intCast]
      simp only [roundToInt]
      rw [if_pos hx]
    · rw [newMoney_coins, Int.floor_intCast]
      simp only [roundToInt]
      rw [if_neg (not_le.mpr hx)]

/-- C5, witness: same-id conversion returns the instance; a concrete
cross-asset conversion lands in the target asset with truncated coins. -/
theorem c5_convert_rounds_toward_zero_witness :
    Money.convert ⟨⟨"X", 8⟩, 10⟩ ⟨"X", 8⟩ 2 = ⟨⟨"X", 8⟩, 10⟩ ∧
    (Money.convert ⟨⟨"EIGHT", 8⟩, 12345⟩ ⟨"FOUR", 4⟩ (3 / 2)).asset = ⟨"FOUR", 4⟩ ∧
    (Money.convert ⟨⟨"EIGHT", 8⟩, 12345⟩ ⟨"FOUR", 4⟩ (3 / 2)).coins =
      ⌊((12345 : ℤ) : ℚ) * (3 / 2) / 10 ^ (((8 : ℕ) : ℤ) - ((4 : ℕ) : ℤ))⌋ := by
  refine ⟨(c5_convert_rounds_toward_zero _ _ _).1 rfl,
    ((c5_convert_rounds_toward_zero _ _ _).2 (by decide)).1,
    ((c5_convert_rounds_toward_zero _ _ _).2 (by decide)).2.1 ?_⟩
  positivity

/-! ## Claim C6 -/

/-- C6: `Money.times` multiplies the coin-scale integers, and concretely two
`fromTokens` values 2 and 5 on a precision-8 asset multiply to coins
`10^17`. -/
theorem c6_times_coin_scale :
    (∀ m1 m2 : Money, m1.asset.id = m2.asset.id →
      Money.times m1 m2 = .ok ⟨m1.asset, m1.coins * m2.coins⟩) ∧
    (Money.times (Money.fromTokens 2 ⟨"EIGHT", 8⟩) (Money.fromTokens 5 ⟨"EIGHT", 8⟩)).map
      Money.toCoins = .ok "100000000000000000" := by
  refine ⟨fun _ _ h => times_ok h, ?_⟩
  have h1 : Money.fromTokens 2 ⟨"EIGHT", 8⟩ = ⟨⟨"EIGHT", 8⟩, 200000000⟩ := by
    rw [Money.fromTokens, newMoney]
    congr 1
    rw [roundToInt_floor_mode]
    norm_num
  have h2 : Money.fromTokens 5 ⟨"EIGHT", 8⟩ = ⟨⟨"EIGHT", 8⟩, 500000000⟩ := by
    rw [Money.fromTokens, newMoney]
    congr 1
    rw [roundToInt_floor_mode]
    norm_num
  rw [h1, h2,
    @times_ok ⟨⟨"EIGHT", 8⟩, 200000000⟩ ⟨⟨"EIGHT", 8⟩, 500000000⟩ rfl]
  have hmul : (200000000 * 500000000 : ℤ) = 100000000000000000 := by norm_num
  simp only [Except.map, hmul]
  congr 1
  show toFixedQ ((100000000000000000 : ℤ) : ℚ) 0 = "100000000000000000"
  rw [toFixedQ_intCast]
  decide

/-- C6, witness: the coin-scale law at concrete inputs. -/
theorem c6_times_coin_scale_witness :
    Money.times ⟨⟨"Z", 0⟩, 6⟩ ⟨⟨"Z", 0⟩, 7⟩ = .ok ⟨⟨"Z", 0⟩, 42⟩ := by
  rw [c6_times_coin_scale.1 ⟨⟨"Z", 0⟩, 6⟩ ⟨⟨"Z", 0⟩, 7⟩ rfl]
  rfl

/-! ## Claim C10 -/

/-- C10: for equal asset ids and a non-zero divisor, `Money.div` succeeds
and its coin amount is the exact coin quotient rounded toward negative
infinity (the constructor's floor). -/
theorem c10_div_floors_exact_quotient (m1 m2 : Money)
    (h : m1.asset.id = m2.asset.id) (hz : m2.coins ≠ 0) :
    Money.div m1 m2 = .ok ⟨m1.asset, ⌊(m1.coins : ℚ) / (m2.coins : ℚ)⌋⟩ := by
  rw [Money.div, matchAssets_ok h, if_neg hz]
  show Except.ok (newMoney _ _) = _
  rw [newMoney, roundToInt_floor_mode]

/-- C10, witness: `7 / 2` floors to `3` and `-7 / 2` floors to `-4` (toward
negative infinity, not toward zero). -/
theorem c10_div_floors_exact_quotient_witness :
    Money.div ⟨⟨"A", 0⟩, 7⟩ ⟨⟨"A", 0⟩, 2⟩ = .ok ⟨⟨"A", 0⟩, 3⟩ ∧
    Money.div ⟨⟨"A", 0⟩, -7⟩ ⟨⟨"A", 0⟩, 2⟩ = .ok ⟨⟨"A", 0⟩, -4⟩ := by
  constructor
  · rw [c10_div_floors_exact_quotient ⟨⟨"A", 0⟩, 7⟩ ⟨⟨"A", 0⟩, 2⟩ rfl (by decide)]
    simp only [Except.ok.injEq, Money.mk.injEq, true_and]
    norm_num
  · rw [c10_div_floors_exact_quotient ⟨⟨"A", 0⟩, -7⟩ ⟨⟨"A", 0⟩, 2⟩ rfl (by decide)]
    simp only [Except.ok.injEq, Money.mk.injEq, true_and]
    norm_num

/-! ## Claim C9 -/

/-- C9, counterexample: the claimed round trip fails for a pair whose amount
asset has precision greater than 8.  With amount precision 9 and price
precision 0, the token string `"1"` (which is `toFixedQ 1 0`, exactly
representable at price precision 0) produces matcher coins `0.1`, which
`toFixedQs(0)` collapses to `"0"`, and the round trip returns `"0"`, not
`"1"`. -/
theorem c9_counterexample :
    ((1 : ℚ) * 10 ^ (0 : ℕ)).den = 1 ∧
    toFixedQ 1 0 = "1" ∧
    orderPriceRoundTrip 1 ⟨⟨"AMT9", 9⟩, ⟨"PRC0", 0⟩⟩ = some "0" := by
  have h1q : (1 : ℚ) * 10 ^ (0 : ℕ) = ((1 : ℤ) : ℚ) := by norm_num
  refine ⟨?_, ?_, ?_⟩
  · rw [h1q]
    rfl
  · rw [show (1 : ℚ) = ((1 : ℤ) : ℚ) by norm_num, toFixedQ_intCast]
    rfl
  · have hA : (OrderPrice.fromTokens 1 ⟨⟨"AMT9", 9⟩, ⟨"PRC0", 0⟩⟩).matcherCoins =
        1 / 10 := by
      show (roundToInt ((1 : ℚ) * 10 ^ (0 : ℕ)) 4 : ℚ) / 10 ^ (0 : ℕ) *
        matcherDivider
          (AssetPair.precisionDifference ⟨⟨"AMT9", 9⟩, ⟨"PRC0", 0⟩⟩) = 1 / 10
      rw [h1q, roundToInt_four_intCast, AssetPair.precisionDifference,
        matcherDivider, matcherScale]
      norm_num
    have hB : (OrderPrice.fromTokens 1 ⟨⟨"AMT9", 9⟩, ⟨"PRC0", 0⟩⟩).toMatcherCoins =
        "0" := by
      rw [OrderPrice.toMatcherCoins, hA, toFixedQ_zero_eq]
      have hr : roundToInt (1 / 10 : ℚ) 4 = 0 := by
        simp only [roundToInt]
        rw [if_pos (by norm_num : (0 : ℚ) ≤ 1 / 10)]
        norm_num
      rw [hr]
      rfl
    have hC : parseDecimal "0" = BigNum.fin ((0 : ℤ) : ℚ) := by
      have h := parseDecimal_intToDecString 0
      rwa [show intToDecString 0 = "0" from rfl] at h
    unfold orderPriceRoundTrip
    rw [hB, hC]
    show some ((OrderPrice.fromMatcherCoins ((0 : ℤ) : ℚ)
      ⟨⟨"AMT9", 9⟩, ⟨"PRC0", 0⟩⟩).toTokens) = some "0"
    congr 1
    rw [OrderPrice.toTokens, OrderPrice.tokens]
    show toFixedQ (((0 : ℤ) : ℚ) /
      matcherDivider (AssetPair.precisionDifference ⟨⟨"AMT9", 9⟩, ⟨"PRC0", 0⟩⟩)) 0 = "0"
    rw [show (((0 : ℤ) : ℚ) /
        matcherDivider (AssetPair.precisionDifference ⟨⟨"AMT9", 9⟩, ⟨"PRC0", 0⟩⟩)) =
      ((0 : ℤ) : ℚ) by norm_num]
    rw [toFixedQ_intCast]
    rfl

/-- C9, amended: the tokens → matcher-coins string → tokens round trip holds
for every token value exactly representable at the price asset's precision
*provided the amount asset's precision is at most 8* (so that the matcher
coins — scaled by `10^(priceAssetPrecision - amountAssetPrecision) * 10^8` —
are integral and survive `toFixed(0)` unchanged). -/
theorem c9_amended_round_trip (v : ℚ) (pair : AssetPair)
    (hden : (v * 10 ^ pair.priceAsset.precision).den = 1)
    (hap : pair.amountAsset.precision ≤ 8) :
    orderPriceRoundTrip v pair = some (toFixedQ v pair.priceAsset.precision) := by
  have h10 : (10 : ℚ) ≠ 0 := by norm_num
  have h10p : (10 : ℚ) ^ pair.priceAsset.precision ≠ 0 := pow_ne_zero _ h10
  have hD : matcherDivider pair.precisionDifference =
      (10 : ℚ) ^ ((pair.priceAsset.precision : ℤ) - (pair.amountAsset.precision : ℤ)) *
        10 ^ (8 : ℕ) := by
    rw [matcherDivider, matcherScale, AssetPair.precisionDifference]
  have hDne : matcherDivider pair.precisionDifference ≠ 0 := by
    rw [hD]
    exact mul_ne_zero (zpow_ne_zero _ h10) (pow_ne_zero _ h10)
  have hcoins : (OrderPrice.fromTokens v pair).matcherCoins =
      ((v * 10 ^ pair.priceAsset.precision).num : ℚ) / 10 ^ pair.priceAsset.precision *
        matcherDivider pair.precisionDifference := by
    show (roundToInt (v * 10 ^ pair.priceAsset.precision) 4 : ℚ) /
        10 ^ pair.priceAsset.precision * matcherDivider pair.precisionDifference = _
    rw [roundToInt_four_den_one hden]
  have hNval : ((v * 10 ^ pair.priceAsset.precision).num : ℚ) /
        10 ^ pair.priceAsset.precision * matcherDivider pair.precisionDifference =
      (((v * 10 ^ pair.priceAsset.precision).num *
        10 ^ (8 - pair.amountAsset.precision) : ℤ) : ℚ) := by
    rw [hD]
    rw [show ((10 : ℚ) ^ (8 : ℕ)) = (10 : ℚ) ^ (((8 : ℕ) : ℤ)) from
      (zpow_natCast 10 8).symm]
    rw [show ((10 : ℚ) ^ pair.priceAsset.precision) =
      (10 : ℚ) ^ ((pair.priceAsset.precision : ℤ)) from
      (zpow_natCast 10 pair.priceAsset.precision).symm]
    rw [← zpow_add₀ h10, div_mul_eq_mul_div, mul_div_assoc, ← zpow_sub₀ h10]
    have hexp : (pair.priceAsset.precision : ℤ) - (pair.amountAsset.precision : ℤ) +
        ((8 : ℕ) : ℤ) - (pair.priceAsset.precision : ℤ) =
        ((8 - pair.amountAsset.precision : ℕ) : ℤ) := by
      push_cast [Nat.cast_sub hap]
      ring
    rw [hexp, zpow_natCast]
    push_cast
    norm_cast
  have hmc : (OrderPrice.fromTokens v pair).toMatcherCoins =
      intToDecString ((v * 10 ^ pair.priceAsset.precision).num *
        10 ^ (8 - pair.amountAsset.precision)) := by
    rw [OrderPrice.toMatcherCoins, hcoins, hNval, toFixedQ_zero_eq,
      roundToInt_four_intCast]
  have hrt : orderPriceRoundTrip v pair =
      some ((OrderPrice.fromMatcherCoins
        (((v * 10 ^ pair.priceAsset.precision).num *
          10 ^ (8 - pair.amountAsset.precision) : ℤ) : ℚ) pair).toTokens) := by
    unfold orderPriceRoundTrip
    rw [hmc, parseDecimal_intToDecString]
  rw [hrt]
  congr 1
  rw [OrderPrice.toTokens, OrderPrice.tokens]
  show toFixedQ ((((v * 10 ^ pair.priceAsset.precision).num *
      10 ^ (8 - pair.amountAsset.precision) : ℤ) : ℚ) /
    matcherDivider pair.precisionDifference) pair.priceAsset.precision =
    toFixedQ v pair.priceAsset.precision
  have hval : (((v * 10 ^ pair.priceAsset.precision).num *
      10 ^ (8 - pair.amountAsset.precision) : ℤ) : ℚ) /
      matcherDivider pair.precisionDifference = v := by
    rw [← hNval, mul_div_cancel_right₀ _ hDne, intCast_num_of_den_one hden]
    exact mul_div_cancel_right₀ v h10p
  rw [hval]

/-- C9, amended, witness: the round trip at token value `3/2` on the pair
(amount precision 0, price precision 4) reproduces the 4-place string. -/
theorem c9_amended_round_trip_witness :
    ((3 / 2 : ℚ) * 10 ^ ((4 : ℕ)) ).den = 1 ∧
    orderPriceRoundTrip (3 / 2) ⟨⟨"ZERO", 0⟩, ⟨"FOUR", 4⟩⟩ =
      some (toFixedQ (3 / 2) 4) := by
  have hden : ((3 / 2 : ℚ) * 10 ^ ((4 : ℕ))).den = 1 := by
    have hval : (3 / 2 : ℚ) * 10 ^ ((4 : ℕ)) = 15000 := by norm_num
    rw [hval]
    rfl
  exact ⟨hden,
    c9_amended_round_trip (3 / 2) ⟨⟨"ZERO", 0⟩, ⟨"FOUR", 4⟩⟩ hden (by norm_num)⟩

end DataEntities
